import Mathlib

/-!
Shallow embedding of the `BasicClusterSnapshot` cluster-snapshot simulator
(package `simulator`, file `basic_cluster_snapshot.go`).

Go maps (`map[string]*NodeInfo`) are modelled as association lists
`List (String × NodeInfo)`; the operations of the source keep keys unique.
In-place mutation through pointers is modelled by explicit state passing:
each mutating method returns the new state, paired with the `error` result
(`Option SnapshotError`, `none` standing for Go's `nil`).
-/

namespace ClusterSnapshotModel

/-- Modelled from the spec: a Pod is an external opaque value whose identity is
the (namespace, name) pair, carrying a label set and a flag saying whether the
pod declares inter-pod affinity/anti-affinity (the scheduler `NodeInfo` code
that inspects `pod.Spec.Affinity` is not part of this file's source). -/
structure Pod where
  Namespace : String
  Name : String
  Labels : List (String × String)
  affinity : Bool
deriving DecidableEq

/-- Modelled from the spec: a Node is an external opaque value whose identity
is its unique name. -/
structure Node where
  Name : String
deriving DecidableEq

/-- Modelled from the spec: the scheduler `NodeInfo` (the spec's NodeRecord) is
one node plus the pods currently assigned to it; its implementation lives in
`k8s.io/kubernetes/pkg/scheduler/nodeinfo`, outside this file's source. -/
structure NodeInfo where
  node : Node
  pods : List Pod
deriving DecidableEq

/-- Modelled from the spec: `schedulernodeinfo.NewNodeInfo()` produces a record
with an empty pod set (the node is set afterwards via `SetNode`). -/
def NodeInfo.NewNodeInfo : NodeInfo := ⟨⟨""⟩, []⟩

/-- Modelled from the spec: `NodeInfo.SetNode` stores the node value; it never
fails in the reference implementation. -/
def NodeInfo.SetNode (ni : NodeInfo) (n : Node) : NodeInfo := { ni with node := n }

/-- Modelled from the spec: `NodeInfo.Pods()` returns the pods assigned to the node. -/
def NodeInfo.Pods (ni : NodeInfo) : List Pod := ni.pods

/-- Modelled from the spec: `NodeInfo.PodsWithAffinity()` returns the assigned
pods that declare inter-pod affinity/anti-affinity. -/
def NodeInfo.PodsWithAffinity (ni : NodeInfo) : List Pod := ni.pods.filter (·.affinity)

/-- Modelled from the spec: `NodeInfo.AddPod` appends the pod to the record. -/
def NodeInfo.AddPod (ni : NodeInfo) (p : Pod) : NodeInfo := { ni with pods := ni.pods ++ [p] }

/-- Modelled from the spec: `NodeInfo.RemovePod` removes the first exact
occurrence of the given pod, failing (`none`) when the pod is not assigned. -/
def NodeInfo.RemovePod (ni : NodeInfo) (p : Pod) : Option NodeInfo :=
  if p ∈ ni.pods then some { ni with pods := ni.pods.erase p } else none

/-- Modelled from the spec: `NodeInfo.Clone` deep-copies the record; with value
semantics the copy is the same value. -/
def NodeInfo.Clone (ni : NodeInfo) : NodeInfo := ⟨ni.node, ni.pods⟩

/-- The error taxonomy of the snapshot: every `fmt.Errorf` site of the source,
by the names the spec gives them (`cannotRemovePod` is the wrapped error of
`removePod` when `NodeInfo.RemovePod` fails). -/
inductive SnapshotError where
  | nodeAlreadyExists (name : String)
  | nodeNotFound (name : String)
  | podNotFound (podNamespace podName : String)
  | alreadyForked
  | cannotRemovePod
deriving DecidableEq

/-- `internalBasicSnapshotData`: the `nodeInfoMap map[string]*NodeInfo`,
modelled as an association list with unique keys. -/
structure internalBasicSnapshotData where
  nodeInfoMap : List (String × NodeInfo)
deriving DecidableEq

/-- `newInternalBasicSnapshotData()`: the empty map. -/
def newInternalBasicSnapshotData : internalBasicSnapshotData := ⟨[]⟩

/-- `internalBasicSnapshotData.clone()`: clone every `NodeInfo` into a fresh map. -/
def internalBasicSnapshotData.clone (d : internalBasicSnapshotData) :
    internalBasicSnapshotData :=
  ⟨d.nodeInfoMap.map (fun e => (e.1, e.2.Clone))⟩

/-- `internalBasicSnapshotData.addNode`: fails when the name is already present,
otherwise inserts a fresh `NodeInfo` for the node. -/
def internalBasicSnapshotData.addNode (d : internalBasicSnapshotData) (node : Node) :
    Except SnapshotError internalBasicSnapshotData :=
  match d.nodeInfoMap.lookup node.Name with
  | some _ => .error (.nodeAlreadyExists node.Name)
  | none => .ok ⟨d.nodeInfoMap ++ [(node.Name, NodeInfo.NewNodeInfo.SetNode node)]⟩

/-- `internalBasicSnapshotData.removeNode`: fails when the name is absent,
otherwise deletes its entry from the map. -/
def internalBasicSnapshotData.removeNode (d : internalBasicSnapshotData)
    (nodeName : String) : Except SnapshotError internalBasicSnapshotData :=
  match d.nodeInfoMap.lookup nodeName with
  | none => .error (.nodeNotFound nodeName)
  | some _ => .ok ⟨d.nodeInfoMap.filter (fun e => e.1 != nodeName)⟩

/-- `internalBasicSnapshotData.addPod`: fails when the node is absent, otherwise
appends the pod to that node's `NodeInfo` (in-place map mutation modelled as an
update of the entry with that key). -/
def internalBasicSnapshotData.addPod (d : internalBasicSnapshotData) (pod : Pod)
    (nodeName : String) : Except SnapshotError internalBasicSnapshotData :=
  match d.nodeInfoMap.lookup nodeName with
  | none => .error (.nodeNotFound nodeName)
  | some _ =>
    .ok ⟨d.nodeInfoMap.map (fun e => if e.1 == nodeName then (e.1, e.2.AddPod pod) else e)⟩

/-- Whether a pod matches the (namespace, name) identity that `removePod` scans for. -/
def podMatches (podNamespace podName : String) (p : Pod) : Bool :=
  p.Namespace == podNamespace && p.Name == podName

/-- The nested loop of `internalBasicSnapshotData.removePod`: walk the node
entries; in the first node holding a matching pod, remove that (first matching)
pod via `NodeInfo.RemovePod` and stop; reaching the end is `PodNotFound`. -/
def removePodLoop (podNamespace podName : String) :
    List (String × NodeInfo) → Except SnapshotError (List (String × NodeInfo))
  | [] => .error (.podNotFound podNamespace podName)
  | (k, ni) :: rest =>
    match ni.Pods.find? (podMatches podNamespace podName) with
    | some pod =>
      match ni.RemovePod pod with
      | some ni2 => .ok ((k, ni2) :: rest)
      | none => .error .cannotRemovePod
    | none => (removePodLoop podNamespace podName rest).map (fun rest2 => (k, ni) :: rest2)

/-- `internalBasicSnapshotData.removePod`. -/
def internalBasicSnapshotData.removePod (d : internalBasicSnapshotData)
    (podNamespace podName : String) : Except SnapshotError internalBasicSnapshotData :=
  (removePodLoop podNamespace podName d.nodeInfoMap).map (fun m => ⟨m⟩)

/-- The pod list materialized by `getAllPods`: all pods of all node entries. -/
def internalBasicSnapshotData.allPods (d : internalBasicSnapshotData) : List Pod :=
  d.nodeInfoMap.flatMap (fun e => e.2.Pods)

/-- `internalBasicSnapshotData.getAllPods`: always succeeds. -/
def internalBasicSnapshotData.getAllPods (d : internalBasicSnapshotData) :
    Except SnapshotError (List Pod) := .ok d.allPods

/-- The node list materialized by `getAllNodes`: each entry's node value. -/
def internalBasicSnapshotData.allNodes (d : internalBasicSnapshotData) : List Node :=
  d.nodeInfoMap.map (fun e => e.2.node)

/-- `internalBasicSnapshotData.getAllNodes`: always succeeds. -/
def internalBasicSnapshotData.getAllNodes (d : internalBasicSnapshotData) :
    Except SnapshotError (List Node) := .ok d.allNodes

/-- The node list returned by the node lister's `List()`: all `NodeInfo` values. -/
def nodeListerNodeInfos (d : internalBasicSnapshotData) : List NodeInfo :=
  d.nodeInfoMap.map (fun e => e.2)

/-- The node list returned by `HavePodsWithAffinityList()`: the `NodeInfo`
values whose `PodsWithAffinity()` list is non-empty. -/
def nodeListerAffinityNodeInfos (d : internalBasicSnapshotData) : List NodeInfo :=
  (nodeListerNodeInfos d).filter (fun ni => decide (0 < ni.PodsWithAffinity.length))

/-- `internalBasicSnapshotDataNodeLister.HavePodsWithAffinityList()`: always succeeds. -/
def internalBasicSnapshotDataNodeLister.HavePodsWithAffinityList
    (d : internalBasicSnapshotData) : Except SnapshotError (List NodeInfo) :=
  .ok (nodeListerAffinityNodeInfos d)

/-- `internalBasicSnapshotDataNodeLister.Get(nodeName)`: the `NodeInfo` for the
name, or an error when absent. -/
def internalBasicSnapshotDataNodeLister.Get (d : internalBasicSnapshotData)
    (nodeName : String) : Except SnapshotError NodeInfo :=
  match d.nodeInfoMap.lookup nodeName with
  | some v => .ok v
  | none => .error (.nodeNotFound nodeName)

/-- `internalBasicSnapshotDataNodeLister.List()`: always succeeds. Declared
after the other lister operations so that the bare name `List` keeps denoting
the list type in their signatures. -/
def internalBasicSnapshotDataNodeLister.List (d : internalBasicSnapshotData) :
    Except SnapshotError (List NodeInfo) := .ok (nodeListerNodeInfos d)

/-- A label selector, modelled as the caller-supplied predicate the source
applies to a pod's label set (`selector.Matches(labels.Set(pod.Labels))`). -/
def LabelSelector : Type := List (String × String) → Bool

/-- The pod list returned by `FilteredList(podFilter, selector)`: for every node
entry, the pods passing both the pod filter and the selector. -/
def podListerFilteredPods (d : internalBasicSnapshotData) (podFilter : Pod → Bool)
    (selector : LabelSelector) : List Pod :=
  d.nodeInfoMap.flatMap (fun e => e.2.Pods.filter (fun p => podFilter p && selector p.Labels))

/-- `internalBasicSnapshotDataPodLister.FilteredList(podFilter, selector)`:
always succeeds. -/
def internalBasicSnapshotDataPodLister.FilteredList (d : internalBasicSnapshotData)
    (podFilter : Pod → Bool) (selector : LabelSelector) :
    Except SnapshotError (List Pod) :=
  .ok (podListerFilteredPods d podFilter selector)

/-- The `alwaysTrue` pod filter defined locally by the pod lister's `List`. -/
def alwaysTrue : Pod → Bool := fun _ => true

/-- `internalBasicSnapshotDataPodLister.List(selector)`: `FilteredList` with the
always-true pod filter. -/
def internalBasicSnapshotDataPodLister.List (d : internalBasicSnapshotData)
    (selector : LabelSelector) : Except SnapshotError (List Pod) :=
  internalBasicSnapshotDataPodLister.FilteredList d alwaysTrue selector

/-- `BasicClusterSnapshot`: the committed state plus the optional forked state. -/
structure BasicClusterSnapshot where
  baseData : internalBasicSnapshotData
  forkedData : Option internalBasicSnapshotData
deriving DecidableEq

/-- `BasicClusterSnapshot.getInternalData()`: the forked state when present,
else the base state. -/
def BasicClusterSnapshot.getInternalData (s : BasicClusterSnapshot) :
    internalBasicSnapshotData :=
  s.forkedData.getD s.baseData

/-- Writing a mutated state back where `getInternalData` read it from: the
forked slot when forked, the base slot otherwise (Go mutates through the
pointer `getInternalData` returned). -/
def setInternalData (s : BasicClusterSnapshot) (d : internalBasicSnapshotData) :
    BasicClusterSnapshot :=
  match s.forkedData with
  | some _ => { s with forkedData := some d }
  | none => { s with baseData := d }

/-- Delegation of a mutating data operation to the active state: on success the
active slot is replaced, on error the snapshot is untouched (every data
operation of the source checks its error condition before mutating). -/
def applyToInternal (s : BasicClusterSnapshot)
    (f : internalBasicSnapshotData → Except SnapshotError internalBasicSnapshotData) :
    Option SnapshotError × BasicClusterSnapshot :=
  match f s.getInternalData with
  | .ok d => (none, setInternalData s d)
  | .error e => (some e, s)

/-- `BasicClusterSnapshot.AddNode`. -/
def BasicClusterSnapshot.AddNode (s : BasicClusterSnapshot) (node : Node) :
    Option SnapshotError × BasicClusterSnapshot :=
  applyToInternal s (fun d => d.addNode node)

/-- `BasicClusterSnapshot.RemoveNode`. -/
def BasicClusterSnapshot.RemoveNode (s : BasicClusterSnapshot) (nodeName : String) :
    Option SnapshotError × BasicClusterSnapshot :=
  applyToInternal s (fun d => d.removeNode nodeName)

/-- `BasicClusterSnapshot.AddPod`. -/
def BasicClusterSnapshot.AddPod (s : BasicClusterSnapshot) (pod : Pod)
    (nodeName : String) : Option SnapshotError × BasicClusterSnapshot :=
  applyToInternal s (fun d => d.addPod pod nodeName)

/-- `BasicClusterSnapshot.RemovePod`. -/
def BasicClusterSnapshot.RemovePod (s : BasicClusterSnapshot)
    (podNamespace podName : String) : Option SnapshotError × BasicClusterSnapshot :=
  applyToInternal s (fun d => d.removePod podNamespace podName)

/-- `BasicClusterSnapshot.GetAllPods()`: delegates to the active state. -/
def BasicClusterSnapshot.GetAllPods (s : BasicClusterSnapshot) :
    Except SnapshotError (List Pod) :=
  s.getInternalData.getAllPods

/-- `BasicClusterSnapshot.GetAllNodes()`: delegates to the active state. -/
def BasicClusterSnapshot.GetAllNodes (s : BasicClusterSnapshot) :
    Except SnapshotError (List Node) :=
  s.getInternalData.getAllNodes

/-- `BasicClusterSnapshot.Fork()`: fails when already forked, otherwise clones
the base state into the forked slot. -/
def BasicClusterSnapshot.Fork (s : BasicClusterSnapshot) :
    Option SnapshotError × BasicClusterSnapshot :=
  match s.forkedData with
  | some _ => (some .alreadyForked, s)
  | none => (none, { s with forkedData := some s.baseData.clone })

/-- `BasicClusterSnapshot.Revert()`: unconditionally clears the forked slot. -/
def BasicClusterSnapshot.Revert (s : BasicClusterSnapshot) :
    Option SnapshotError × BasicClusterSnapshot :=
  (none, { s with forkedData := none })

/-- `BasicClusterSnapshot.Commit()`: a no-op when not forked, otherwise the
forked state becomes the base state and the forked slot is cleared. -/
def BasicClusterSnapshot.Commit (s : BasicClusterSnapshot) :
    Option SnapshotError × BasicClusterSnapshot :=
  match s.forkedData with
  | none => (none, s)
  | some d => (none, ⟨d, none⟩)

/-- `BasicClusterSnapshot.Clear()`: empty base state, no forked state. -/
def BasicClusterSnapshot.Clear (_s : BasicClusterSnapshot) :
    Option SnapshotError × BasicClusterSnapshot :=
  (none, ⟨newInternalBasicSnapshotData, none⟩)

/-- `NewBasicClusterSnapshot()`: a cleared snapshot. -/
def NewBasicClusterSnapshot : BasicClusterSnapshot := ⟨newInternalBasicSnapshotData, none⟩

/-- One mutating call of the public snapshot interface. -/
inductive Op where
  | addNode (node : Node)
  | removeNode (nodeName : String)
  | addPod (pod : Pod) (nodeName : String)
  | removePod (podNamespace podName : String)

/-- Issuing one call against the snapshot: the resulting snapshot state (a
failed call leaves the snapshot as it was; the error goes to the caller). -/
def applyOp (s : BasicClusterSnapshot) : Op → BasicClusterSnapshot
  | .addNode n => (s.AddNode n).2
  | .removeNode name => (s.RemoveNode name).2
  | .addPod p name => (s.AddPod p name).2
  | .removePod podNamespace podName => (s.RemovePod podNamespace podName).2

/-- Issuing a sequence of calls in order. -/
def applyOps (s : BasicClusterSnapshot) (ops : List Op) : BasicClusterSnapshot :=
  ops.foldl applyOp s

/-- The identity of a pod: the (namespace, name) pair. -/
def podId (p : Pod) : String × String := (p.Namespace, p.Name)

/-- The invariants of a snapshot state the spec records in its data model:
node keys are unique, each entry's node carries the entry's name, and pod
identities are unique across the whole snapshot (the spec leaves the last to
the caller). -/
def WfData (d : internalBasicSnapshotData) : Prop :=
  (d.nodeInfoMap.map Prod.fst).Nodup ∧
  (∀ e ∈ d.nodeInfoMap, e.2.node.Name = e.1) ∧
  (d.allPods.map podId).Nodup

instance (d : internalBasicSnapshotData) : Decidable (WfData d) := by
  unfold WfData
  exact inferInstance

/-- A sample pod without affinity, used in concrete instantiations. -/
def podA : Pod := ⟨"default", "pod-a", [("app", "a")], false⟩

/-- A sample pod with inter-pod affinity, used in concrete instantiations. -/
def podB : Pod := ⟨"default", "pod-b", [], true⟩

/-- A sample node, used in concrete instantiations. -/
def nodeN1 : Node := ⟨"n1"⟩

/-- A sample one-node state holding both sample pods. -/
def sampleData : internalBasicSnapshotData := ⟨[("n1", ⟨nodeN1, [podA, podB]⟩)]⟩

/-! ## Basic lemmas about the embedding -/

theorem NodeInfo.Clone_eq (ni : NodeInfo) : ni.Clone = ni := rfl

theorem clone_eq_self (d : internalBasicSnapshotData) : d.clone = d := by
  unfold internalBasicSnapshotData.clone
  rw [show (fun e : String × NodeInfo => (e.1, e.2.Clone)) = id from rfl, List.map_id]

theorem applyToInternal_preserves (s : BasicClusterSnapshot)
    (f : internalBasicSnapshotData → Except SnapshotError internalBasicSnapshotData) :
    ((applyToInternal s f).2).forkedData.isSome = s.forkedData.isSome ∧
    (s.forkedData.isSome = true → ((applyToInternal s f).2).baseData = s.baseData) := by
  rcases s with ⟨b, fo⟩
  cases fo with
  | none =>
    unfold applyToInternal
    cases f (BasicClusterSnapshot.getInternalData ⟨b, none⟩) with
    | ok d => exact ⟨rfl, fun h => by simp at h⟩
    | error e => exact ⟨rfl, fun h => by simp at h⟩
  | some d0 =>
    unfold applyToInternal
    cases f (BasicClusterSnapshot.getInternalData ⟨b, some d0⟩) with
    | ok d => exact ⟨rfl, fun _ => rfl⟩
    | error e => exact ⟨rfl, fun _ => rfl⟩

theorem applyOp_preserves (s : BasicClusterSnapshot) (op : Op) :
    (applyOp s op).forkedData.isSome = s.forkedData.isSome ∧
    (s.forkedData.isSome = true → (applyOp s op).baseData = s.baseData) := by
  cases op with
  | addNode n => exact applyToInternal_preserves s _
  | removeNode name => exact applyToInternal_preserves s _
  | addPod p name => exact applyToInternal_preserves s _
  | removePod podNamespace podName => exact applyToInternal_preserves s _

theorem applyOps_preserves (ops : List Op) (s : BasicClusterSnapshot) :
    (applyOps s ops).forkedData.isSome = s.forkedData.isSome ∧
    (s.forkedData.isSome = true → (applyOps s ops).baseData = s.baseData) := by
  induction ops generalizing s with
  | nil => exact ⟨rfl, fun _ => rfl⟩
  | cons op rest ih =>
    have hstep : applyOps s (op :: rest) = applyOps (applyOp s op) rest := rfl
    obtain ⟨h1, h2⟩ := applyOp_preserves s op
    obtain ⟨h3, h4⟩ := ih (applyOp s op)
    refine ⟨by rw [hstep, h3, h1], fun hs => ?_⟩
    rw [hstep, h4 (by rw [h1, hs]), h2 hs]

theorem applyOps_unforked (ops : List Op) (s : BasicClusterSnapshot)
    (h : s.forkedData = none) : (applyOps s ops).forkedData = none := by
  have h2 := (applyOps_preserves ops s).1
  rw [h] at h2
  rcases hf : (applyOps s ops).forkedData with _ | d
  · rfl
  · rw [hf] at h2; simp at h2

theorem fork_revert_general (s0 : BasicClusterSnapshot) (h0 : s0.forkedData = none)
    (mutOps : List Op) :
    ∃ s1 : BasicClusterSnapshot, s0.Fork = (none, s1) ∧
      (((applyOps s1 mutOps).Revert).2).getInternalData = s0.getInternalData := by
  rcases s0 with ⟨b, fo⟩
  obtain rfl : fo = none := h0
  refine ⟨⟨b, some b.clone⟩, rfl, ?_⟩
  have hb : (applyOps ⟨b, some b.clone⟩ mutOps).baseData = b :=
    (applyOps_preserves mutOps ⟨b, some b.clone⟩).2 rfl
  show (applyOps ⟨b, some b.clone⟩ mutOps).baseData = b
  exact hb

theorem fork_commit_general (s0 : BasicClusterSnapshot) (h0 : s0.forkedData = none)
    (mutOps : List Op) :
    ∃ s1 s3 : BasicClusterSnapshot, s0.Fork = (none, s1) ∧
      (applyOps s1 mutOps).Commit = (none, s3) ∧
      s3.getInternalData = (applyOps s1 mutOps).getInternalData ∧
      s3.forkedData = none ∧ s3.baseData = (applyOps s1 mutOps).getInternalData := by
  rcases s0 with ⟨b, fo⟩
  obtain rfl : fo = none := h0
  have hsome : (applyOps ⟨b, some b.clone⟩ mutOps).forkedData.isSome = true :=
    (applyOps_preserves mutOps ⟨b, some b.clone⟩).1
  rcases hf : (applyOps ⟨b, some b.clone⟩ mutOps).forkedData with _ | d2
  · rw [hf] at hsome; simp at hsome
  refine ⟨⟨b, some b.clone⟩, ⟨d2, none⟩, rfl, ?_, ?_, rfl, ?_⟩
  · unfold BasicClusterSnapshot.Commit
    rw [hf]
  · unfold BasicClusterSnapshot.getInternalData
    rw [hf]
    rfl
  · unfold BasicClusterSnapshot.getInternalData
    rw [hf]
    rfl

/-! ## Claim theorems -/

/-- C1: for every sequence of operations applied to a fresh snapshot, followed
by a successful Fork, then any further mutations, then Revert, the results of
GetAllNodes and GetAllPods equal (as sets) their values immediately before the
Fork. (Proved for arbitrary initial operation sequences, which subsumes the
AddNode/AddPod sequences of the claim; the lists are in fact equal, which gives
the order-independent set equality.) -/
theorem fork_mutate_revert_restores (initOps mutOps : List Op) :
    ∃ s1 : BasicClusterSnapshot,
      (applyOps NewBasicClusterSnapshot initOps).Fork = (none, s1) ∧
      (∀ n : Node,
        n ∈ (((applyOps s1 mutOps).Revert).2).getInternalData.allNodes ↔
          n ∈ (applyOps NewBasicClusterSnapshot initOps).getInternalData.allNodes) ∧
      (∀ p : Pod,
        p ∈ (((applyOps s1 mutOps).Revert).2).getInternalData.allPods ↔
          p ∈ (applyOps NewBasicClusterSnapshot initOps).getInternalData.allPods) := by
  have h0 : (applyOps NewBasicClusterSnapshot initOps).forkedData = none :=
    applyOps_unforked initOps NewBasicClusterSnapshot rfl
  obtain ⟨s1, hfork, heq⟩ := fork_revert_general _ h0 mutOps
  exact ⟨s1, hfork, fun n => by rw [heq], fun p => by rw [heq]⟩

/-- C2: for every such sequence ending with Commit instead of Revert, Commit
succeeds, the reads afterwards equal (as sets) the post-mutation forked state,
and any subsequent Fork followed (after arbitrary further operations) by Revert
leaves that committed state unchanged. -/
theorem fork_mutate_commit_keeps (initOps mutOps : List Op) :
    ∃ s1 s3 : BasicClusterSnapshot,
      (applyOps NewBasicClusterSnapshot initOps).Fork = (none, s1) ∧
      (applyOps s1 mutOps).Commit = (none, s3) ∧
      (∀ n : Node, n ∈ s3.getInternalData.allNodes ↔
        n ∈ (applyOps s1 mutOps).getInternalData.allNodes) ∧
      (∀ p : Pod, p ∈ s3.getInternalData.allPods ↔
        p ∈ (applyOps s1 mutOps).getInternalData.allPods) ∧
      ∃ s4 : BasicClusterSnapshot, s3.Fork = (none, s4) ∧
        ∀ extraOps : List Op, (((applyOps s4 extraOps).Revert).2) = s3 := by
  have h0 : (applyOps NewBasicClusterSnapshot initOps).forkedData = none :=
    applyOps_unforked initOps NewBasicClusterSnapshot rfl
  obtain ⟨s1, s3, hfork, hcommit, hread, hunforked, hbase⟩ :=
    fork_commit_general _ h0 mutOps
  refine ⟨s1, s3, hfork, hcommit, fun n => by rw [hread], fun p => by rw [hread], ?_⟩
  rcases s3 with ⟨b3, fo3⟩
  obtain rfl : fo3 = none := hunforked
  refine ⟨⟨b3, some b3.clone⟩, rfl, fun extraOps => ?_⟩
  have hb : (applyOps ⟨b3, some b3.clone⟩ extraOps).baseData = b3 :=
    (applyOps_preserves extraOps ⟨b3, some b3.clone⟩).2 rfl
  show (⟨(applyOps ⟨b3, some b3.clone⟩ extraOps).baseData, none⟩ : BasicClusterSnapshot) =
    ⟨b3, none⟩
  rw [hb]

/-- C3: Fork on an already-forked snapshot fails with AlreadyForked and leaves
both the committed and the pending state unchanged; Fork on an unforked
snapshot succeeds and sets the pending state to a clone of the committed one. -/
theorem fork_semantics (s : BasicClusterSnapshot) :
    (s.forkedData = none →
      s.Fork = (none, ⟨s.baseData, some s.baseData.clone⟩)) ∧
    (∀ d, s.forkedData = some d →
      s.Fork = (some SnapshotError.alreadyForked, s)) := by
  rcases s with ⟨b, fo⟩
  constructor
  · intro h
    obtain rfl : fo = none := h
    rfl
  · intro d h
    obtain rfl : fo = some d := h
    rfl

theorem fork_semantics_witness :
    (NewBasicClusterSnapshot.Fork =
      (none, ⟨NewBasicClusterSnapshot.baseData,
        some NewBasicClusterSnapshot.baseData.clone⟩)) ∧
    (BasicClusterSnapshot.Fork ⟨⟨[]⟩, some sampleData⟩ =
      (some SnapshotError.alreadyForked, ⟨⟨[]⟩, some sampleData⟩)) :=
  ⟨(fork_semantics NewBasicClusterSnapshot).1 rfl,
   (fork_semantics ⟨⟨[]⟩, some sampleData⟩).2 sampleData rfl⟩

/-- C4: on an unforked snapshot, Revert and Commit both succeed and leave the
snapshot (in particular its committed state) completely unchanged. -/
theorem revert_commit_unforked_noop (s : BasicClusterSnapshot)
    (h : s.forkedData = none) :
    s.Revert = (none, s) ∧ s.Commit = (none, s) := by
  rcases s with ⟨b, fo⟩
  obtain rfl : fo = none := h
  exact ⟨rfl, rfl⟩

theorem revert_commit_unforked_noop_witness :
    NewBasicClusterSnapshot.Revert = (none, NewBasicClusterSnapshot) ∧
    NewBasicClusterSnapshot.Commit = (none, NewBasicClusterSnapshot) :=
  revert_commit_unforked_noop NewBasicClusterSnapshot rfl

/-- C10: every bulk read operation always succeeds (returns the Go nil error)
despite its error-returning signature; among the read operations only the node
lister's Get can fail, with NodeNotFound exactly when the node is absent. -/
theorem read_operations_always_succeed (d : internalBasicSnapshotData)
    (selector : LabelSelector) (podFilter : Pod → Bool) (nodeName : String) :
    d.getAllPods = .ok d.allPods ∧
    d.getAllNodes = .ok d.allNodes ∧
    internalBasicSnapshotDataNodeLister.List d = .ok (nodeListerNodeInfos d) ∧
    internalBasicSnapshotDataNodeLister.HavePodsWithAffinityList d =
      .ok (nodeListerAffinityNodeInfos d) ∧
    internalBasicSnapshotDataPodLister.List d selector =
      .ok (podListerFilteredPods d alwaysTrue selector) ∧
    internalBasicSnapshotDataPodLister.FilteredList d podFilter selector =
      .ok (podListerFilteredPods d podFilter selector) ∧
    (∀ ni, d.nodeInfoMap.lookup nodeName = some ni →
      internalBasicSnapshotDataNodeLister.Get d nodeName = .ok ni) ∧
    (d.nodeInfoMap.lookup nodeName = none →
      internalBasicSnapshotDataNodeLister.Get d nodeName =
        .error (.nodeNotFound nodeName)) := by
  refine ⟨rfl, rfl, rfl, rfl, rfl, rfl, fun ni h => ?_, fun h => ?_⟩
  · unfold internalBasicSnapshotDataNodeLister.Get
    rw [h]
  · unfold internalBasicSnapshotDataNodeLister.Get
    rw [h]

theorem lookup_mem {l : List (String × NodeInfo)} {n : String} {v : NodeInfo}
    (h : l.lookup n = some v) : (n, v) ∈ l := by
  induction l with
  | nil => simp [List.lookup] at h
  | cons e t ih =>
    rcases e with ⟨k, w⟩
    rw [List.lookup_cons] at h
    cases hnk : (n == k) with
    | true =>
      rw [hnk] at h
      injection h with h
      obtain rfl : n = k := eq_of_beq hnk
      subst h
      exact List.mem_cons_self _ _
    | false =>
      rw [hnk] at h
      exact List.mem_cons_of_mem _ (ih h)

theorem lookup_none_of_filter_ne (l : List (String × NodeInfo)) (n : String) :
    (l.filter (fun e => e.1 != n)).lookup n = none := by
  rw [List.lookup_eq_none_iff]
  intro e he
  have h2 := (List.mem_filter.mp he).2
  rw [bne_iff_ne] at h2 ⊢
  exact fun h => h2 h.symm

theorem filter_ne_eq_self {l : List (String × NodeInfo)} {n : String}
    (hnotin : n ∉ l.map Prod.fst) : l.filter (fun e => e.1 != n) = l := by
  rw [List.filter_eq_self]
  intro e he
  rw [bne_iff_ne]
  exact fun h => hnotin (h ▸ List.mem_map_of_mem Prod.fst he)

theorem lookup_perm {l : List (String × NodeInfo)} {n : String} {ni : NodeInfo}
    (hnd : (l.map Prod.fst).Nodup) (h : l.lookup n = some ni) :
    l.Perm ((n, ni) :: l.filter (fun e => e.1 != n)) := by
  induction l with
  | nil => simp [List.lookup] at h
  | cons e t ih =>
    rcases e with ⟨k, w⟩
    rw [List.map_cons, List.nodup_cons] at hnd
    obtain ⟨hknotin, hndt⟩ := hnd
    rw [List.lookup_cons] at h
    cases hnk : (n == k) with
    | true =>
      rw [hnk] at h
      injection h with h
      obtain rfl : n = k := eq_of_beq hnk
      subst h
      rw [List.filter_cons]
      simp only [bne_self_eq_false, Bool.false_eq_true, if_false]
      rw [filter_ne_eq_self hknotin]
    | false =>
      rw [hnk] at h
      have hperm := ih hndt h
      rw [List.filter_cons]
      have hkn : ((k, w).1 != n) = true := by
        rw [bne_iff_ne]
        exact fun heq => by rw [beq_eq_false_iff_ne] at hnk; exact hnk heq.symm
      rw [hkn]
      simp only [if_true]
      exact (hperm.cons (k, w)).trans (List.Perm.swap (n, ni) (k, w) _)

/-- C5: removing a present node succeeds, deletes its record, and discards all
its pods: afterwards the record is gone, the node is no longer listed, and none
of its pods is listed (under the data-model invariants: unique node keys,
coherent node names, unique pod identities). Removing an absent name fails with
NodeNotFound. -/
theorem removeNode_discards_node_and_pods (d : internalBasicSnapshotData)
    (nodeName : String) :
    (∀ ni, WfData d → d.nodeInfoMap.lookup nodeName = some ni →
      ∃ d', d.removeNode nodeName = .ok d' ∧
        d'.nodeInfoMap.lookup nodeName = none ∧
        ni.node ∉ d'.allNodes ∧
        (∀ p ∈ ni.pods, p ∉ d'.allPods)) ∧
    (d.nodeInfoMap.lookup nodeName = none →
      d.removeNode nodeName = .error (.nodeNotFound nodeName)) := by
  constructor
  · intro ni hwf hlk
    obtain ⟨hkeys, hnames, hpods⟩ := hwf
    refine ⟨⟨d.nodeInfoMap.filter (fun e => e.1 != nodeName)⟩, ?_, ?_, ?_, ?_⟩
    · unfold internalBasicSnapshotData.removeNode
      rw [hlk]
    · exact lookup_none_of_filter_ne _ _
    · intro hmem
      obtain ⟨e, hef, henode⟩ := List.mem_map.mp hmem
      have hin := List.mem_filter.mp hef
      have hname_e : e.2.node.Name = e.1 := hnames e hin.1
      have hname_ni : ni.node.Name = nodeName :=
        hnames (nodeName, ni) (lookup_mem hlk)
      have : e.1 = nodeName := by rw [← hname_e, henode, hname_ni]
      rw [bne_iff_ne] at hin
      exact hin.2 this
    · intro p hp hmem
      have hperm :
          d.allPods.Perm
            (((nodeName, ni) :: d.nodeInfoMap.filter (fun e => e.1 != nodeName)).flatMap
              (fun e => e.2.Pods)) :=
        List.Perm.flatMap_right _ (lookup_perm hkeys hlk)
      rw [List.flatMap_cons] at hperm
      have hnd :
          (((ni.Pods ++ (⟨d.nodeInfoMap.filter (fun e => e.1 != nodeName)⟩ :
            internalBasicSnapshotData).allPods).map podId)).Nodup :=
        ((hperm.map podId).nodup_iff).mp hpods
      rw [List.map_append] at hnd
      exact List.disjoint_of_nodup_append hnd
        (List.mem_map_of_mem podId hp) (List.mem_map_of_mem podId hmem)
  · intro h
    unfold internalBasicSnapshotData.removeNode
    rw [h]

theorem removeNode_discards_node_and_pods_witness :
    (∃ d', sampleData.removeNode "n1" = .ok d' ∧
      d'.nodeInfoMap.lookup "n1" = none ∧
      (⟨nodeN1, [podA, podB]⟩ : NodeInfo).node ∉ d'.allNodes ∧
      (∀ p ∈ (⟨nodeN1, [podA, podB]⟩ : NodeInfo).pods, p ∉ d'.allPods)) ∧
    sampleData.removeNode "n2" = .error (.nodeNotFound "n2") :=
  ⟨(removeNode_discards_node_and_pods sampleData "n1").1 ⟨nodeN1, [podA, podB]⟩
      (by decide) (by decide),
   (removeNode_discards_node_and_pods sampleData "n2").2 (by decide)⟩

theorem getInternalData_setInternalData (s : BasicClusterSnapshot)
    (d : internalBasicSnapshotData) : (setInternalData s d).getInternalData = d := by
  rcases s with ⟨b, fo⟩
  cases fo <;> rfl

theorem lookup_map_update (l : List (String × NodeInfo)) (n : String)
    (f : NodeInfo → NodeInfo) :
    (l.map (fun e => if e.1 == n then (e.1, f e.2) else e)).lookup n =
      (l.lookup n).map f := by
  induction l with
  | nil => rfl
  | cons e t ih =>
    rcases e with ⟨k, w⟩
    by_cases hk : k = n
    · subst hk
      simp [List.lookup_cons]
    · have hk1 : (k == n) = false := by simpa using hk
      have hk2 : (n == k) = false := by simpa using Ne.symm hk
      simp only [List.map_cons, hk1, Bool.false_eq_true, if_false]
      rw [List.lookup_cons, List.lookup_cons, hk2]
      exact ih

theorem lookup_map_update_other (l : List (String × NodeInfo)) (n m : String)
    (f : NodeInfo → NodeInfo) (hm : m ≠ n) :
    (l.map (fun e => if e.1 == n then (e.1, f e.2) else e)).lookup m =
      l.lookup m := by
  induction l with
  | nil => rfl
  | cons e t ih =>
    rcases e with ⟨k, w⟩
    by_cases hk : k = n
    · subst hk
      have hmk : (m == k) = false := by simpa using hm
      simp only [List.map_cons, beq_self_eq_true, if_true]
      rw [List.lookup_cons, List.lookup_cons, hmk]
      exact ih
    · have hk1 : (k == n) = false := by simpa using hk
      simp only [List.map_cons, hk1, Bool.false_eq_true, if_false]
      rw [List.lookup_cons, List.lookup_cons]
      cases (m == k) with
      | true => rfl
      | false => exact ih

/-- C6: AddPod with a node name absent from the active state fails with
NodeNotFound and leaves the whole snapshot unchanged; when the node exists, the
call succeeds, the pod is appended to that node's record, and every other
node's record is untouched. -/
theorem addPod_semantics (s : BasicClusterSnapshot) (pod : Pod) (nodeName : String) :
    (s.getInternalData.nodeInfoMap.lookup nodeName = none →
      s.AddPod pod nodeName = (some (.nodeNotFound nodeName), s)) ∧
    (∀ ni, s.getInternalData.nodeInfoMap.lookup nodeName = some ni →
      ∃ s' : BasicClusterSnapshot, s.AddPod pod nodeName = (none, s') ∧
        s'.getInternalData.nodeInfoMap.lookup nodeName = some (ni.AddPod pod) ∧
        ni.AddPod pod = ⟨ni.node, ni.pods ++ [pod]⟩ ∧
        (∀ m, m ≠ nodeName →
          s'.getInternalData.nodeInfoMap.lookup m =
            s.getInternalData.nodeInfoMap.lookup m)) := by
  constructor
  · intro h
    have herr : s.getInternalData.addPod pod nodeName =
        .error (.nodeNotFound nodeName) := by
      unfold internalBasicSnapshotData.addPod
      rw [h]
    simp only [BasicClusterSnapshot.AddPod, applyToInternal]
    rw [herr]
  · intro ni h
    have hres : s.getInternalData.addPod pod nodeName =
        .ok ⟨s.getInternalData.nodeInfoMap.map
          (fun e => if e.1 == nodeName then (e.1, e.2.AddPod pod) else e)⟩ := by
      unfold internalBasicSnapshotData.addPod
      rw [h]
    refine ⟨setInternalData s ⟨s.getInternalData.nodeInfoMap.map
      (fun e => if e.1 == nodeName then (e.1, e.2.AddPod pod) else e)⟩, ?_, ?_, rfl, ?_⟩
    · simp only [BasicClusterSnapshot.AddPod, applyToInternal]
      rw [hres]
    · rw [getInternalData_setInternalData]
      have h2 := lookup_map_update s.getInternalData.nodeInfoMap nodeName
        (fun x => x.AddPod pod)
      rw [h] at h2
      exact h2
    · intro m hm
      rw [getInternalData_setInternalData]
      exact lookup_map_update_other s.getInternalData.nodeInfoMap nodeName m
        (fun x => x.AddPod pod) hm

theorem addPod_semantics_witness :
    (BasicClusterSnapshot.AddPod ⟨sampleData, none⟩ podA "n2" =
      (some (.nodeNotFound "n2"), ⟨sampleData, none⟩)) ∧
    (∃ s' : BasicClusterSnapshot,
      BasicClusterSnapshot.AddPod ⟨sampleData, none⟩ podA "n1" = (none, s') ∧
      s'.getInternalData.nodeInfoMap.lookup "n1" =
        some ((⟨nodeN1, [podA, podB]⟩ : NodeInfo).AddPod podA) ∧
      (⟨nodeN1, [podA, podB]⟩ : NodeInfo).AddPod podA =
        ⟨(⟨nodeN1, [podA, podB]⟩ : NodeInfo).node,
          (⟨nodeN1, [podA, podB]⟩ : NodeInfo).pods ++ [podA]⟩ ∧
      (∀ m, m ≠ "n1" →
        s'.getInternalData.nodeInfoMap.lookup m =
          (BasicClusterSnapshot.getInternalData ⟨sampleData, none⟩).nodeInfoMap.lookup m)) :=
  ⟨(addPod_semantics ⟨sampleData, none⟩ podA "n2").1 (by decide),
   (addPod_semantics ⟨sampleData, none⟩ podA "n1").2 ⟨nodeN1, [podA, podB]⟩ (by decide)⟩

theorem erase_eq_eraseP_of_find? {q : Pod} {pm : Pod → Bool} {l : List Pod}
    (h : l.find? pm = some q) : l.erase q = l.eraseP pm := by
  induction l with
  | nil => simp at h
  | cons a t ih =>
    rw [List.find?_cons] at h
    cases hpa : pm a with
    | true =>
      rw [hpa] at h
      injection h with h
      subst h
      rw [List.erase_cons, List.eraseP_cons, hpa]
      simp
    | false =>
      rw [hpa] at h
      have hq : pm q = true := List.find?_some h
      have hne : (a == q) = false := by
        rw [beq_eq_false_iff_ne]
        intro heq
        rw [heq, hq] at hpa
        cases hpa
      rw [List.erase_cons, List.eraseP_cons, hpa, hne]
      simp only [Bool.false_eq_true, if_false, cond_false]
      rw [ih h]

theorem removePodLoop_no_match (podNamespace podName : String)
    (l : List (String × NodeInfo))
    (h : ∀ p ∈ l.flatMap (fun e => e.2.Pods),
      podMatches podNamespace podName p = false) :
    removePodLoop podNamespace podName l =
      .error (.podNotFound podNamespace podName) := by
  induction l with
  | nil => rfl
  | cons e t ih =>
    rcases e with ⟨k, ni⟩
    have hfind : ni.Pods.find? (podMatches podNamespace podName) = none := by
      rw [List.find?_eq_none]
      intro p hp
      rw [h p (by rw [List.flatMap_cons]; exact List.mem_append_left _ hp)]
      simp
    unfold removePodLoop
    rw [hfind, ih (fun p hp => h p (by
      rw [List.flatMap_cons]; exact List.mem_append_right _ hp))]
    rfl

theorem removePodLoop_found (podNamespace podName : String)
    (l : List (String × NodeInfo)) (p : Pod)
    (hp : p ∈ l.flatMap (fun e => e.2.Pods))
    (hm : podMatches podNamespace podName p = true) :
    ∃ m, removePodLoop podNamespace podName l = .ok m ∧
      m.flatMap (fun e => e.2.Pods) =
        (l.flatMap (fun e => e.2.Pods)).eraseP (podMatches podNamespace podName) ∧
      m.map (fun e => e.2.node) = l.map (fun e => e.2.node) := by
  induction l with
  | nil => simp at hp
  | cons e t ih =>
    rcases e with ⟨k, ni⟩
    cases hfind : ni.Pods.find? (podMatches podNamespace podName) with
    | some q =>
      have hqmem : q ∈ ni.pods := List.mem_of_find?_eq_some hfind
      have hqm : podMatches podNamespace podName q = true := List.find?_some hfind
      have hremove : ni.RemovePod q = some ⟨ni.node, ni.pods.erase q⟩ := by
        unfold NodeInfo.RemovePod
        rw [if_pos hqmem]
      refine ⟨(k, ⟨ni.node, ni.pods.erase q⟩) :: t, ?_, ?_, rfl⟩
      · unfold removePodLoop
        rw [hfind]
        simp [hremove]
      · rw [List.flatMap_cons, List.flatMap_cons]
        have hfind2 : List.find? (podMatches podNamespace podName) ni.pods = some q :=
          hfind
        show ni.pods.erase q ++ t.flatMap (fun e => e.2.Pods) =
          List.eraseP (podMatches podNamespace podName)
            (ni.pods ++ t.flatMap (fun e => e.2.Pods))
        rw [List.eraseP_append_left hqm _ hqmem, erase_eq_eraseP_of_find? hfind2]
    | none =>
      have hnomatch : ∀ x ∈ ni.pods, podMatches podNamespace podName x = false := by
        intro x hx
        have := List.find?_eq_none.mp hfind x hx
        exact Bool.not_eq_true _ ▸ (by simpa using this)
      have hp2 : p ∈ t.flatMap (fun e => e.2.Pods) := by
        rw [List.flatMap_cons] at hp
        rcases List.mem_append.mp hp with hcase | hcase
        · rw [hnomatch p hcase] at hm
          cases hm
        · exact hcase
      obtain ⟨m, hml, hmf, hmn⟩ := ih hp2
      refine ⟨(k, ni) :: m, ?_, ?_, ?_⟩
      · unfold removePodLoop
        rw [hfind, hml]
        rfl
      · rw [List.flatMap_cons, List.flatMap_cons, hmf,
          List.eraseP_append_right]
        intro b hb
        rw [hnomatch b hb]
        simp
      · rw [List.map_cons, List.map_cons, hmn]

/-- C7: removePod scans the node records and removes exactly the first pod
matching the (namespace, name) identity, leaving all pods before it and every
node value in place; it fails exactly when no pod in the state matches, in
which case the error is PodNotFound and a snapshot routing to that state is
left unchanged. -/
theorem removePod_scan_semantics (d : internalBasicSnapshotData)
    (podNamespace podName : String) :
    (d.removePod podNamespace podName =
        .error (.podNotFound podNamespace podName) ↔
      ∀ p ∈ d.allPods, podMatches podNamespace podName p = false) ∧
    (∀ p ∈ d.allPods, podMatches podNamespace podName p = true →
      ∃ d', d.removePod podNamespace podName = .ok d' ∧
        d'.allPods = d.allPods.eraseP (podMatches podNamespace podName) ∧
        d'.allNodes = d.allNodes) ∧
    (∀ s : BasicClusterSnapshot, s.getInternalData = d →
      (∀ p ∈ d.allPods, podMatches podNamespace podName p = false) →
      s.RemovePod podNamespace podName =
        (some (.podNotFound podNamespace podName), s)) := by
  have hok : ∀ p ∈ d.allPods, podMatches podNamespace podName p = true →
      ∃ d', d.removePod podNamespace podName = .ok d' ∧
        d'.allPods = d.allPods.eraseP (podMatches podNamespace podName) ∧
        d'.allNodes = d.allNodes := by
    intro p hp hm
    obtain ⟨m, hml, hmf, hmn⟩ := removePodLoop_found podNamespace podName
      d.nodeInfoMap p hp hm
    refine ⟨⟨m⟩, ?_, hmf, hmn⟩
    unfold internalBasicSnapshotData.removePod
    rw [hml]
    rfl
  refine ⟨⟨?_, ?_⟩, hok, ?_⟩
  · intro herr p hp
    cases hmatch : podMatches podNamespace podName p with
    | false => rfl
    | true =>
      obtain ⟨d', hd', _, _⟩ := hok p hp hmatch
      rw [hd'] at herr
      cases herr
  · intro hall
    unfold internalBasicSnapshotData.removePod
    rw [removePodLoop_no_match podNamespace podName d.nodeInfoMap hall]
    rfl
  · intro s hs hall
    have herr : s.getInternalData.removePod podNamespace podName =
        .error (.podNotFound podNamespace podName) := by
      rw [hs]
      unfold internalBasicSnapshotData.removePod
      rw [removePodLoop_no_match podNamespace podName d.nodeInfoMap hall]
      rfl
    simp only [BasicClusterSnapshot.RemovePod, applyToInternal]
    rw [herr]

theorem removePod_scan_semantics_witness :
    (∃ d', sampleData.removePod "default" "pod-b" = .ok d' ∧
      d'.allPods = sampleData.allPods.eraseP (podMatches "default" "pod-b") ∧
      d'.allNodes = sampleData.allNodes) ∧
    BasicClusterSnapshot.RemovePod ⟨sampleData, none⟩ "default" "pod-c" =
      (some (.podNotFound "default" "pod-c"), ⟨sampleData, none⟩) :=
  ⟨(removePod_scan_semantics sampleData "default" "pod-b").2.1 podB (by decide)
      (by decide),
   (removePod_scan_semantics sampleData "default" "pod-c").2.2 ⟨sampleData, none⟩
      rfl (by decide)⟩

theorem flatMap_filter_comm (l : List (String × NodeInfo)) (q : Pod → Bool) :
    l.flatMap (fun e => e.2.Pods.filter q) =
      (l.flatMap (fun e => e.2.Pods)).filter q := by
  induction l with
  | nil => rfl
  | cons e t ih =>
    rw [List.flatMap_cons, List.flatMap_cons, List.filter_append, ih]

theorem podListerFilteredPods_eq_filter (d : internalBasicSnapshotData)
    (podFilter : Pod → Bool) (selector : LabelSelector) :
    podListerFilteredPods d podFilter selector =
      d.allPods.filter (fun p => podFilter p && selector p.Labels) :=
  flatMap_filter_comm d.nodeInfoMap _

/-- C8: the pod lister's List equals FilteredList with the always-true pod
filter; FilteredList returns exactly the pods (of all nodes) satisfying both
the pod filter and the selector; and when the state's pods are duplicate-free
(the spec's unique-pod-identity expectation), so is the returned list. -/
theorem filteredList_semantics (d : internalBasicSnapshotData)
    (podFilter : Pod → Bool) (selector : LabelSelector) :
    internalBasicSnapshotDataPodLister.List d selector =
      internalBasicSnapshotDataPodLister.FilteredList d alwaysTrue selector ∧
    (∀ p, p ∈ podListerFilteredPods d podFilter selector ↔
      p ∈ d.allPods ∧ podFilter p = true ∧ selector p.Labels = true) ∧
    (d.allPods.Nodup → (podListerFilteredPods d podFilter selector).Nodup) := by
  refine ⟨rfl, fun p => ?_, fun h => ?_⟩
  · rw [podListerFilteredPods_eq_filter, List.mem_filter, Bool.and_eq_true]
  · rw [podListerFilteredPods_eq_filter]
    exact h.filter _

theorem filteredList_semantics_witness :
    sampleData.allPods.Nodup ∧
    (podListerFilteredPods sampleData (fun p => p.affinity) (fun _ => true)).Nodup :=
  ⟨by decide,
   (filteredList_semantics sampleData (fun p => p.affinity) (fun _ => true)).2.2
     (by decide)⟩

/-- C9: ListWithAffinityPods returns exactly the members of the node lister's
List whose pod set holds at least one pod declaring inter-pod
affinity/anti-affinity (so a node with pods but none such is excluded), and it
is a sub-sequence of List. -/
theorem affinity_nodes_semantics (d : internalBasicSnapshotData) :
    (∀ ni, ni ∈ nodeListerAffinityNodeInfos d ↔
      ni ∈ nodeListerNodeInfos d ∧ ∃ p ∈ ni.pods, p.affinity = true) ∧
    (nodeListerAffinityNodeInfos d).Sublist (nodeListerNodeInfos d) := by
  constructor
  · intro ni
    unfold nodeListerAffinityNodeInfos
    rw [List.mem_filter, decide_eq_true_eq, List.length_pos_iff_exists_mem]
    constructor
    · rintro ⟨hmem, a, ha⟩
      have := List.mem_filter.mp ha
      exact ⟨hmem, a, this.1, this.2⟩
    · rintro ⟨hmem, a, ha, haff⟩
      exact ⟨hmem, a, List.mem_filter.mpr ⟨ha, haff⟩⟩
  · exact List.filter_sublist _

theorem read_operations_always_succeed_witness :
    internalBasicSnapshotDataNodeLister.Get sampleData "n1" =
      .ok ⟨nodeN1, [podA, podB]⟩ ∧
    internalBasicSnapshotDataNodeLister.Get sampleData "n2" =
      .error (.nodeNotFound "n2") :=
  ⟨(read_operations_always_succeed sampleData (fun _ => true) (fun _ => true)
      "n1").2.2.2.2.2.2.1 ⟨nodeN1, [podA, podB]⟩ (by decide),
   (read_operations_always_succeed sampleData (fun _ => true) (fun _ => true)
      "n2").2.2.2.2.2.2.2 (by decide)⟩

end ClusterSnapshotModel
